import Mathlib

/-!
Verification of the reits-prospectus-search retrieval core.

The Python sources are shallowly embedded: chunks are records, Python lists
are Lean lists, machine integers are `Int`, optional parameters are `Option`,
and every fallible step returns an explicit value.  Strings are Lean `String`s
and all character-level processing (splitting, stripping, parsing) is done on
`String.data` with structurally recursive functions so that every definition
evaluates inside the kernel.

Modelling conventions, used throughout:
* Python `str.strip()` is `pyStrip` (ASCII whitespace; the rare non-ASCII
  Unicode space classes are not modelled).
* Python `int(s)` on a stripped token is `python_int_of_chars` (optional sign
  followed by ASCII decimal digits; underscore separators and non-ASCII digits
  are not modelled).
* Python `list.sort` / `sorted` (a stable mergesort) is `List.mergeSort`.
* `float` relevance scores are modelled as `Int`: the embedded code only ever
  compares scores, so any linearly ordered carrier is faithful.
-/

/-- Python whitespace characters recognised by `str.strip()` (ASCII subset). -/
def isPySpace (c : Char) : Bool :=
  c = ' ' || c = '\t' || c = '\n' || c = '\x0d' || c = '\x0b' || c = '\x0c'

/-- Python `str.strip()` on a character list. -/
def pyStrip (cs : List Char) : List Char :=
  ((cs.dropWhile isPySpace).reverse.dropWhile isPySpace).reverse

/-- Python `str.strip()` returning a `String`. -/
def pyStripString (s : String) : String :=
  String.mk (pyStrip s.data)

/-- Value of a list of ASCII decimal digits. -/
def digitsToNat (cs : List Char) : Nat :=
  cs.foldl (fun acc c => acc * 10 + (c.toNat - '0'.toNat)) 0

/-- Parse a non-empty run of ASCII digits, `none` otherwise. -/
def parseDigits (cs : List Char) : Option Nat :=
  if cs ≠ [] ∧ cs.all (·.isDigit) then some (digitsToNat cs) else none

/-- Python `int(s)` on an already stripped token: optional sign followed by
ASCII decimal digits. -/
def python_int_of_chars (cs : List Char) : Option Int :=
  match cs with
  | '+' :: rest => (parseDigits rest).map Int.ofNat
  | '-' :: rest => (parseDigits rest).map (fun n => -(n : Int))
  | _ => (parseDigits cs).map Int.ofNat

/-- Python `s.split('-')` on a character list (single-character separator). -/
def splitOnDash : List Char → List (List Char)
  | [] => [[]]
  | c :: rest =>
    if c = '-' then [] :: splitOnDash rest
    else
      match splitOnDash rest with
      | [] => [[c]]
      | g :: gs => (c :: g) :: gs

/-- Unified chunk record.  The Python sources use both `SearchResult`
dataclasses and raw backend-hit dictionaries; both expose the same fields used
by the verified components, so a single record embeds them.  Fields that no
verified component reads (`fund_code`, `date`, `short_name`) are omitted. -/
structure SearchResult where
  global_id : String
  chunk_id : Int
  source_file : String
  page_num : String
  text : String
  score : Int
  from_methods : List String
deriving DecidableEq, Repr

namespace PageUtils

/-- PageUtils.extract_page_numbers_from_string: split the page label on `-`,
keep the tokens that parse as integers (unparsable tokens are skipped). -/
def extract_page_numbers_from_string (page_num_str : String) : List Int :=
  if page_num_str = "" then []
  else (splitOnDash page_num_str.data).filterMap
    (fun part => python_int_of_chars (pyStrip part))

end PageUtils

namespace ChunkUtils

/-- Predicate of the chunk_id pass of `apply_range_limitations`: the loop
`continue`s when a given lower bound exceeds the id or a given upper bound is
below it. -/
def id_keep (start_chunk_id end_chunk_id : Option Int) (c : SearchResult) : Bool :=
  (match start_chunk_id with
   | some s => !(c.chunk_id < s)
   | none => true) &&
  (match end_chunk_id with
   | some e => !(e < c.chunk_id)
   | none => true)

/-- Predicate of the page pass of `apply_range_limitations`: when the page
label yields parsable pages, compare the extremes of the parsed pages against
the given bounds; otherwise keep the chunk. -/
def page_keep (start_page end_page : Option Int) (c : SearchResult) : Bool :=
  match (PageUtils.extract_page_numbers_from_string c.page_num).min?,
      (PageUtils.extract_page_numbers_from_string c.page_num).max? with
  | some mn, some mx =>
    (match start_page with
     | some s => !(mx < s)
     | none => true) &&
    (match end_page with
     | some e => !(mn > e)
     | none => true)
  | _, _ => true

/-- ChunkUtils.apply_range_limitations: empty input is returned as is; a
chunk_id pass runs when either id bound is given, then a page pass runs when
either page bound is given. -/
def apply_range_limitations (chunks : List SearchResult)
    (start_page end_page start_chunk_id end_chunk_id : Option Int) :
    List SearchResult :=
  if chunks.isEmpty then chunks
  else
    let filtered₁ :=
      if start_chunk_id.isSome || end_chunk_id.isSome then
        chunks.filter (id_keep start_chunk_id end_chunk_id)
      else chunks
    if start_page.isSome || end_page.isSome then
      filtered₁.filter (page_keep start_page end_page)
    else filtered₁

/-- Comparison used by every chunk sort in the sources (`key=chunk_id`). -/
def chunk_le (a b : SearchResult) : Bool :=
  a.chunk_id ≤ b.chunk_id

/-- ChunkUtils.expand_chunks: no targets or a zero window returns the targets
unchanged; otherwise every chunk of `all_chunks` whose id lies in
`[min target id - expand_before, max target id + expand_after]` is returned,
sorted by chunk_id. -/
def expand_chunks (target_chunks all_chunks : List SearchResult)
    (expand_before expand_after : Int) : List SearchResult :=
  if target_chunks.isEmpty || (expand_before = 0 ∧ expand_after = 0 : Bool) then
    target_chunks
  else
    match (target_chunks.map (·.chunk_id)).min?,
        (target_chunks.map (·.chunk_id)).max? with
    | some min_chunk_id, some max_chunk_id =>
      let expand_start_id := min_chunk_id - expand_before
      let expand_end_id := max_chunk_id + expand_after
      (all_chunks.filter
        (fun c => expand_start_id ≤ c.chunk_id && c.chunk_id ≤ expand_end_id)).mergeSort
        chunk_le
    | _, _ => target_chunks

/-- ChunkUtils.merge_chunks_text: sort by chunk_id, concatenate the texts with
no separator. -/
def merge_chunks_text (chunks : List SearchResult) : String :=
  if chunks.isEmpty then ""
  else String.join ((chunks.mergeSort chunk_le).map (·.text))

end ChunkUtils

/-! Spec-level predicates for the range-filter claims, written from the
spec's words (not from the code) so the code's behaviour can be compared
against them. -/

/-- Spec wording: `chunk_id ∈ [idLo, idHi]` for whichever bound is given. -/
def chunk_id_within_bounds (start_chunk_id end_chunk_id : Option Int)
    (c : SearchResult) : Bool :=
  start_chunk_id.all (fun s => s ≤ c.chunk_id) &&
  end_chunk_id.all (fun e => c.chunk_id ≤ e)

/-- Spec wording, literal reading: the parsed page set itself intersects
`[pageLo, pageHi]` (some parsed page lies within every given bound), or the
label yields no parsable pages (fail open). -/
def page_set_intersects_bounds (start_page end_page : Option Int)
    (c : SearchResult) : Bool :=
  (PageUtils.extract_page_numbers_from_string c.page_num).isEmpty ||
    (PageUtils.extract_page_numbers_from_string c.page_num).any
      (fun p => start_page.all (fun s => s ≤ p) && end_page.all (fun e => p ≤ e))

/-- What the code actually tests: the closed interval spanned by the parsed
pages (from their minimum to their maximum) intersects `[pageLo, pageHi]` —
equivalently, some parsed page is ≥ the given lower bound and some parsed page
is ≤ the given upper bound — or the label yields no parsable pages. -/
def page_span_meets_bounds (start_page end_page : Option Int)
    (c : SearchResult) : Bool :=
  (PageUtils.extract_page_numbers_from_string c.page_num).isEmpty ||
    (start_page.all (fun s =>
        (PageUtils.extract_page_numbers_from_string c.page_num).any
          (fun p => s ≤ p)) &&
     end_page.all (fun e =>
        (PageUtils.extract_page_numbers_from_string c.page_num).any
          (fun p => p ≤ e)))

/-- Bool form of "both bounds given implies lo ≤ hi". -/
def boundsOrdered (lo hi : Option Int) : Bool :=
  match lo, hi with
  | some s, some e => s ≤ e
  | _, _ => true

section RangeFilterLemmas

open ChunkUtils PageUtils

theorem not_decide_lt (a b : Int) : (!decide (a < b)) = decide (b ≤ a) := by
  by_cases h : a < b
  · simp [h, not_le.mpr h]
  · simp [h, le_of_not_lt h]

theorem id_keep_eq_within (sc ec : Option Int) (c : SearchResult) :
    id_keep sc ec c = chunk_id_within_bounds sc ec c := by
  cases sc <;> cases ec <;>
    simp [id_keep, chunk_id_within_bounds, Option.all_none, Option.all_some,
      not_decide_lt]

theorem int_min?_eq_some {l : List Int} {a : Int} :
    l.min? = some a ↔ a ∈ l ∧ ∀ b ∈ l, a ≤ b := by
  haveI : Std.Antisymm (fun (x y : Int) => x ≤ y) :=
    ⟨fun h h' => le_antisymm h h'⟩
  apply List.min?_eq_some_iff
  · exact fun x => le_refl x
  · exact fun x y => min_choice x y
  · exact fun x y z => le_min_iff

theorem int_max?_eq_some {l : List Int} {a : Int} :
    l.max? = some a ↔ a ∈ l ∧ ∀ b ∈ l, b ≤ a := by
  haveI : Std.Antisymm (fun (x y : Int) => x ≤ y) :=
    ⟨fun h h' => le_antisymm h h'⟩
  apply List.max?_eq_some_iff
  · exact fun x => le_refl x
  · exact fun x y => max_choice x y
  · exact fun x y z => max_le_iff

theorem page_keep_eq_span (sp ep : Option Int) (c : SearchResult) :
    page_keep sp ep c = page_span_meets_bounds sp ep c := by
  unfold page_keep page_span_meets_bounds
  cases hmn : (PageUtils.extract_page_numbers_from_string c.page_num).min? with
  | none =>
    have he : PageUtils.extract_page_numbers_from_string c.page_num = [] :=
      List.min?_eq_none_iff.mp hmn
    simp [he]
  | some mn =>
    have hne : PageUtils.extract_page_numbers_from_string c.page_num ≠ [] := by
      intro h
      rw [List.min?_eq_none_iff.mpr h] at hmn
      exact Option.noConfusion hmn
    cases hmx : (PageUtils.extract_page_numbers_from_string c.page_num).max? with
    | none => exact absurd (List.max?_eq_none_iff.mp hmx) hne
    | some mx =>
      obtain ⟨hmnMem, hmnLe⟩ := int_min?_eq_some.mp hmn
      obtain ⟨hmxMem, hmxLe⟩ := int_max?_eq_some.mp hmx
      have hEmpty :
          (PageUtils.extract_page_numbers_from_string c.page_num).isEmpty = false := by
        cases hpp : PageUtils.extract_page_numbers_from_string c.page_num with
        | nil => exact absurd hpp hne
        | cons _ _ => rfl
      have hA : ∀ s : Int, (!decide (mx < s)) =
          (PageUtils.extract_page_numbers_from_string c.page_num).any
            (fun p => decide (s ≤ p)) := by
        intro s
        by_cases h : mx < s
        · have hall : (PageUtils.extract_page_numbers_from_string c.page_num).any
              (fun p => decide (s ≤ p)) = false := by
            rw [List.any_eq_false]
            intro p hp
            simp only [decide_eq_true_eq]
            intro hsp
            exact absurd (lt_of_lt_of_le h hsp) (not_lt.mpr (hmxLe p hp))
          simp [h, hall]
        · have hex : (PageUtils.extract_page_numbers_from_string c.page_num).any
              (fun p => decide (s ≤ p)) = true :=
            List.any_eq_true.mpr ⟨mx, hmxMem, by simpa using le_of_not_lt h⟩
          simp [h, hex]
      have hB : ∀ e : Int, (!decide (mn > e)) =
          (PageUtils.extract_page_numbers_from_string c.page_num).any
            (fun p => decide (p ≤ e)) := by
        intro e
        by_cases h : e < mn
        · have hall : (PageUtils.extract_page_numbers_from_string c.page_num).any
              (fun p => decide (p ≤ e)) = false := by
            rw [List.any_eq_false]
            intro p hp
            simp only [decide_eq_true_eq]
            intro hpe
            exact absurd (lt_of_lt_of_le h (hmnLe p hp)) (not_lt.mpr hpe)
          simp [gt_iff_lt, h, hall]
        · have hex : (PageUtils.extract_page_numbers_from_string c.page_num).any
              (fun p => decide (p ≤ e)) = true :=
            List.any_eq_true.mpr ⟨mn, hmnMem, by simpa using le_of_not_lt h⟩
          simp [gt_iff_lt, h, hex]
      simp only [hmn, hmx, hEmpty, Bool.false_or]
      cases sp <;> cases ep <;>
        simp [Option.all_none, Option.all_some, hA, hB]

/-- The range filter is exactly an id-pass filter followed by a page-pass
filter, with the predicates stated in spec vocabulary. -/
theorem apply_range_limitations_eq_filter (chunks : List SearchResult)
    (sp ep sc ec : Option Int) :
    apply_range_limitations chunks sp ep sc ec =
      (chunks.filter (chunk_id_within_bounds sc ec)).filter
        (page_span_meets_bounds sp ep) := by
  have hguard_id : ∀ l : List SearchResult,
      (if sc.isSome || ec.isSome then l.filter (id_keep sc ec) else l) =
        l.filter (chunk_id_within_bounds sc ec) := by
    intro l
    rw [show l.filter (id_keep sc ec) = l.filter (chunk_id_within_bounds sc ec)
      from List.filter_congr fun x _ => id_keep_eq_within sc ec x]
    split
    · rfl
    · next h =>
      have hsc : sc = none := by cases sc <;> simp_all
      have hec : ec = none := by cases ec <;> simp_all
      subst hsc hec
      rw [List.filter_congr (q := fun _ => true)
        (fun x _ => by simp [chunk_id_within_bounds, Option.all_none])]
      exact (List.filter_true l).symm
  have hguard_page : ∀ l : List SearchResult,
      (if sp.isSome || ep.isSome then l.filter (page_keep sp ep) else l) =
        l.filter (page_span_meets_bounds sp ep) := by
    intro l
    rw [show l.filter (page_keep sp ep) = l.filter (page_span_meets_bounds sp ep)
      from List.filter_congr fun x _ => page_keep_eq_span sp ep x]
    split
    · rfl
    · next h =>
      have hsp : sp = none := by cases sp <;> simp_all
      have hep : ep = none := by cases ep <;> simp_all
      subst hsp hep
      rw [List.filter_congr (q := fun _ => true)
        (fun x _ => by simp [page_span_meets_bounds, Option.all_none])]
      exact (List.filter_true l).symm
  unfold apply_range_limitations
  cases chunks with
  | nil => simp
  | cons a l =>
    simp only [List.isEmpty_cons, Bool.false_eq_true, if_false]
    rw [hguard_id (a :: l), hguard_page ((a :: l).filter (chunk_id_within_bounds sc ec))]

end RangeFilterLemmas

section ChunkClaims

open ChunkUtils PageUtils

/-- C1 (amended): the range filter is two sequential passes in fixed order —
the chunk_id pass first, then the page pass — and keeps a chunk iff its
chunk_id lies within each given id bound and, in the page pass, either the
interval spanned by its parsed pages meets the given page bounds (some parsed
page is ≥ pageLo and some parsed page is ≤ pageHi, for whichever bound is
given) or the page label yields no parsable page numbers (fail open); an
absent bound imposes no constraint. -/
theorem claim_C1_range_filter_two_pass :
    ∀ (chunks : List SearchResult) (sp ep sc ec : Option Int),
      apply_range_limitations chunks sp ep sc ec =
        (chunks.filter (chunk_id_within_bounds sc ec)).filter
          (page_span_meets_bounds sp ep) ∧
      (∀ c, c ∈ apply_range_limitations chunks sp ep sc ec ↔
        c ∈ chunks ∧ chunk_id_within_bounds sc ec c = true ∧
          page_span_meets_bounds sp ep c = true) := by
  intro chunks sp ep sc ec
  refine ⟨apply_range_limitations_eq_filter chunks sp ep sc ec, fun c => ?_⟩
  rw [apply_range_limitations_eq_filter chunks sp ep sc ec]
  simp only [List.mem_filter]
  tauto

/-- Chunk used only by the C1 counterexample: its page label parses to the
page set {1, 10}. -/
def c1Chunk : SearchResult :=
  { global_id := "g1", chunk_id := 1, source_file := "f", page_num := "1-10",
    text := "t", score := 0, from_methods := [] }

/-- C1 counterexample: under the page filter [4, 5] the code keeps a chunk
whose parsed page set {1, 10} contains no page in [4, 5] — the literal
"parsed page set intersects [pageLo, pageHi]" reading of the claim is false;
the code compares the bounds against the span from the minimum to the maximum
parsed page. -/
theorem claim_C1_counterexample :
    apply_range_limitations [c1Chunk] (some 4) (some 5) none none = [c1Chunk] ∧
    page_set_intersects_bounds (some 4) (some 5) c1Chunk = false := by
  decide

theorem chunk_le_trans : ∀ a b c : SearchResult,
    chunk_le a b = true → chunk_le b c = true → chunk_le a c = true := by
  intro a b c
  simp only [chunk_le, decide_eq_true_eq]
  omega

theorem chunk_le_total : ∀ a b : SearchResult,
    (chunk_le a b || chunk_le b a) = true := by
  intro a b
  simp only [chunk_le, Bool.or_eq_true, decide_eq_true_eq]
  omega

/-- C2: for non-empty targets drawn from the document's chunk list and
non-negative margins, `expand_chunks` is the identity when both margins are
zero, and otherwise returns exactly the chunks of `all_chunks` whose chunk_id
lies in the closed interval [min target id − before, max target id + after],
sorted ascending by chunk_id. -/
theorem claim_C2_expand_chunks
    (targets all_chunks : List SearchResult) (before after : Int)
    (hsub : ∀ t ∈ targets, t ∈ all_chunks) (hne : targets ≠ [])
    (hb : 0 ≤ before) (ha : 0 ≤ after) :
    (before = 0 ∧ after = 0 →
      expand_chunks targets all_chunks before after = targets) ∧
    (¬(before = 0 ∧ after = 0) →
      ∀ mn mx, (targets.map (·.chunk_id)).min? = some mn →
        (targets.map (·.chunk_id)).max? = some mx →
        (expand_chunks targets all_chunks before after).Perm
          (all_chunks.filter (fun c =>
            decide (mn - before ≤ c.chunk_id) &&
            decide (c.chunk_id ≤ mx + after))) ∧
        (expand_chunks targets all_chunks before after).Sorted
          (fun x y => x.chunk_id ≤ y.chunk_id)) := by
  constructor
  · rintro ⟨hb0, ha0⟩
    subst hb0 ha0
    simp [expand_chunks]
  · intro hnz mn mx hmn hmx
    have hnzb : decide (before = 0 ∧ after = 0) = false := by
      simpa using hnz
    have hempty : targets.isEmpty = false := by
      cases targets with
      | nil => exact absurd rfl hne
      | cons _ _ => rfl
    have hrw : expand_chunks targets all_chunks before after =
        (all_chunks.filter (fun c =>
          decide (mn - before ≤ c.chunk_id) &&
          decide (c.chunk_id ≤ mx + after))).mergeSort chunk_le := by
      unfold expand_chunks
      simp only [hempty, hnzb, Bool.or_self, Bool.false_or, Bool.false_eq_true,
        if_false, hmn, hmx]
    rw [hrw]
    constructor
    · exact List.mergeSort_perm _ chunk_le
    · have hPW := List.sorted_mergeSort chunk_le_trans chunk_le_total
        (all_chunks.filter (fun c =>
          decide (mn - before ≤ c.chunk_id) &&
          decide (c.chunk_id ≤ mx + after)))
      exact hPW.imp (fun h => by simpa [chunk_le] using h)

/-- Chunks used only by the C2 witness. -/
def w2a : SearchResult :=
  { global_id := "a", chunk_id := 4, source_file := "f", page_num := "4",
    text := "A", score := 0, from_methods := [] }

def w2b : SearchResult :=
  { global_id := "b", chunk_id := 5, source_file := "f", page_num := "5",
    text := "B", score := 0, from_methods := [] }

def w2c : SearchResult :=
  { global_id := "c", chunk_id := 6, source_file := "f", page_num := "6",
    text := "C", score := 0, from_methods := [] }

theorem claim_C2_witness :
    expand_chunks [w2b] [w2a, w2b, w2c] 0 0 = [w2b] ∧
    (expand_chunks [w2b] [w2a, w2b, w2c] 0 1).Perm
      ([w2a, w2b, w2c].filter (fun c =>
        decide ((5 : Int) - 0 ≤ c.chunk_id) &&
        decide (c.chunk_id ≤ (5 : Int) + 1))) ∧
    (expand_chunks [w2b] [w2a, w2b, w2c] 0 1).Sorted
      (fun x y => x.chunk_id ≤ y.chunk_id) := by
  refine ⟨(claim_C2_expand_chunks [w2b] [w2a, w2b, w2c] 0 0
    (by decide) (by decide) (by decide) (by decide)).1 ⟨rfl, rfl⟩, ?_, ?_⟩
  · exact ((claim_C2_expand_chunks [w2b] [w2a, w2b, w2c] 0 1
      (by decide) (by decide) (by decide) (by decide)).2
      (by decide) 5 5 (by decide) (by decide)).1
  · exact ((claim_C2_expand_chunks [w2b] [w2a, w2b, w2c] 0 1
      (by decide) (by decide) (by decide) (by decide)).2
      (by decide) 5 5 (by decide) (by decide)).2

/-- C8 (amended): under ordered bounds the range filter returns a subset of
its input, and every returned chunk satisfies each specified bound — its
chunk_id lies in the given id range, and the interval spanned by its parsed
pages meets the given page range unless the label yields no parsable pages
(which fails open). -/
theorem claim_C8_filter_subset_sound
    (chunks : List SearchResult) (sp ep sc ec : Option Int)
    (hpage : boundsOrdered sp ep = true) (hid : boundsOrdered sc ec = true) :
    (∀ c ∈ apply_range_limitations chunks sp ep sc ec, c ∈ chunks) ∧
    (∀ c ∈ apply_range_limitations chunks sp ep sc ec,
      chunk_id_within_bounds sc ec c = true ∧
      page_span_meets_bounds sp ep c = true) := by
  constructor
  · intro c hc
    rw [apply_range_limitations_eq_filter chunks sp ep sc ec] at hc
    exact (List.mem_filter.mp (List.mem_filter.mp hc).1).1
  · intro c hc
    rw [apply_range_limitations_eq_filter chunks sp ep sc ec] at hc
    exact ⟨(List.mem_filter.mp (List.mem_filter.mp hc).1).2,
      (List.mem_filter.mp hc).2⟩

/-- Chunk used only by the C8 counterexample: its page label parses to the
page set {2, 9}. -/
def c8Chunk : SearchResult :=
  { global_id := "g8", chunk_id := 7, source_file := "f", page_num := "2-9",
    text := "t", score := 0, from_methods := [] }

/-- C8 counterexample: with ordered page bounds [4, 5] the filter keeps a
chunk none of whose parsed pages lies in [4, 5] — "every returned chunk
satisfies each specified bound" is false under the parsed-page-set reading;
the code only requires the min–max span of the parsed pages to overlap the
bounds. -/
theorem claim_C8_counterexample :
    boundsOrdered (some 4) (some 5) = true ∧
    apply_range_limitations [c8Chunk] (some 4) (some 5) none none = [c8Chunk] ∧
    (∀ p ∈ PageUtils.extract_page_numbers_from_string c8Chunk.page_num,
      ¬(4 ≤ p ∧ p ≤ 5)) := by
  decide

/-- Chunk used only by the C8 witness. -/
def w8a : SearchResult :=
  { global_id := "w8", chunk_id := 3, source_file := "f", page_num := "12",
    text := "t", score := 0, from_methods := [] }

theorem claim_C8_witness :
    boundsOrdered (some 10) (some 20) = true ∧
    boundsOrdered (some 1) (some 9) = true ∧
    (∀ c ∈ apply_range_limitations [w8a] (some 10) (some 20) (some 1) (some 9),
      c ∈ [w8a]) ∧
    (∀ c ∈ apply_range_limitations [w8a] (some 10) (some 20) (some 1) (some 9),
      chunk_id_within_bounds (some 1) (some 9) c = true ∧
      page_span_meets_bounds (some 10) (some 20) c = true) :=
  ⟨by decide, by decide,
    (claim_C8_filter_subset_sound [w8a] (some 10) (some 20) (some 1) (some 9)
      (by decide) (by decide)).1,
    (claim_C8_filter_subset_sound [w8a] (some 10) (some 20) (some 1) (some 9)
      (by decide) (by decide)).2⟩

theorem expand_chunks_zero (T A : List SearchResult) :
    expand_chunks T A 0 0 = T := by
  simp [expand_chunks]

/-- C9: expansion with zero margins is the identity, so `expand` is
interval-idempotent — re-expanding with zero margins returns the expanded
list unchanged — and merging an unexpanded target list is a text no-op. -/
theorem claim_C9_expand_idempotent :
    (∀ (T A : List SearchResult) (b a : Int),
      expand_chunks (expand_chunks T A b a) A 0 0 =
        expand_chunks T A b a) ∧
    (∀ T A : List SearchResult,
      merge_chunks_text (expand_chunks T A 0 0) = merge_chunks_text T) :=
  ⟨fun T A b a => expand_chunks_zero (expand_chunks T A b a) A,
   fun T A => by rw [expand_chunks_zero]⟩

end ChunkClaims

namespace HybridSearcher

/-- Global ids of a result list. -/
def gids (l : List SearchResult) : List String :=
  l.map (·.global_id)

/-- Sort-key component of `_merge_and_deduplicate`: 0 when the result carries
the "vector" provenance tag, 1 otherwise. -/
def vec_rank (r : SearchResult) : Int :=
  if "vector" ∈ r.from_methods then 0 else 1

/-- Python tuple-key comparison `(vec_rank, -score)` ascending. -/
def merge_le (a b : SearchResult) : Bool :=
  decide (vec_rank a < vec_rank b) ||
    (decide (vec_rank a = vec_rank b) && decide (-a.score ≤ -b.score))

/-- First pass of `_merge_and_deduplicate`: append each vector result whose
global id has not been seen, tagging it `["vector"]`. -/
def insert_vector_results :
    List SearchResult → List SearchResult → List String →
      List SearchResult × List String
  | [], acc, seen => (acc, seen)
  | r :: rest, acc, seen =>
    if r.global_id ∈ seen then insert_vector_results rest acc seen
    else
      insert_vector_results rest
        (acc ++ [{ r with from_methods := ["vector"] }]) (r.global_id :: seen)

/-- Duplicate handling of the second pass: walk the accumulated results, and
on the first entry with the matching global id, union "keyword" into its
provenance tags, then stop. -/
def add_keyword_tag : List SearchResult → String → List SearchResult
  | [], _ => []
  | e :: rest, gid =>
    if e.global_id = gid then
      (if "keyword" ∈ e.from_methods then e
       else { e with from_methods := e.from_methods ++ ["keyword"] }) :: rest
    else e :: add_keyword_tag rest gid

/-- Second pass of `_merge_and_deduplicate`: append each unseen keyword
result tagged `["keyword"]`; for a seen global id, union "keyword" into the
existing entry instead of duplicating. -/
def insert_keyword_results :
    List SearchResult → List SearchResult → List String → List SearchResult
  | [], acc, _ => acc
  | r :: rest, acc, seen =>
    if r.global_id ∈ seen then
      insert_keyword_results rest (add_keyword_tag acc r.global_id) seen
    else
      insert_keyword_results rest
        (acc ++ [{ r with from_methods := ["keyword"] }]) (r.global_id :: seen)

/-- HybridSearcher._merge_and_deduplicate: vector results first, then keyword
results (deduplicated by global id, provenance tags unioned), finally a stable
sort by the composite key (has-vector-tag first, then score descending). -/
def merge_and_deduplicate
    (vector_results keyword_results : List SearchResult) : List SearchResult :=
  match insert_vector_results vector_results [] [] with
  | (acc, seen) =>
    (insert_keyword_results keyword_results acc seen).mergeSort merge_le

end HybridSearcher

section HybridMergeLemmas

open HybridSearcher

theorem gids_append (l₁ l₂ : List SearchResult) :
    gids (l₁ ++ l₂) = gids l₁ ++ gids l₂ :=
  List.map_append _ l₁ l₂

theorem gids_cons (a : SearchResult) (l : List SearchResult) :
    gids (a :: l) = a.global_id :: gids l := rfl

theorem mem_gids {g : String} {l : List SearchResult} :
    g ∈ gids l ↔ ∃ r ∈ l, r.global_id = g := List.mem_map

theorem gids_nodup_inj : ∀ {acc : List SearchResult}, (gids acc).Nodup →
    ∀ {x y : SearchResult}, x ∈ acc → y ∈ acc →
      x.global_id = y.global_id → x = y := by
  intro acc
  induction acc with
  | nil => intro _ x y hx; simp at hx
  | cons a rest ih =>
    intro hnd x y hx hy hxy
    rw [gids_cons, List.nodup_cons] at hnd
    rcases List.mem_cons.mp hx with hxa | hxr <;>
      rcases List.mem_cons.mp hy with hya | hyr
    · rw [hxa, hya]
    · exact absurd (mem_gids.mpr ⟨y, hyr, (hxa ▸ hxy).symm⟩) hnd.1
    · exact absurd (mem_gids.mpr ⟨x, hxr, hya ▸ hxy⟩) hnd.1
    · exact ih hnd.2 hxr hyr hxy

theorem insert_vector_invariant (v : List SearchResult) :
    ∀ acc seen,
      (∀ x, x ∈ seen ↔ x ∈ gids acc) →
      (gids acc).Nodup →
      (∀ r ∈ acc, "vector" ∈ r.from_methods) →
      (∀ x, x ∈ (insert_vector_results v acc seen).2 ↔
        x ∈ gids (insert_vector_results v acc seen).1) ∧
      (gids (insert_vector_results v acc seen).1).Nodup ∧
      (∀ r ∈ (insert_vector_results v acc seen).1,
        "vector" ∈ r.from_methods) ∧
      (∀ x ∈ seen, x ∈ (insert_vector_results v acc seen).2) ∧
      (∀ g ∈ gids v, g ∈ gids (insert_vector_results v acc seen).1) := by
  induction v with
  | nil =>
    intro acc seen hseen hnd htag
    exact ⟨hseen, hnd, htag, fun x hx => hx, by intro g hg; simp [gids] at hg⟩
  | cons r rest ih =>
    intro acc seen hseen hnd htag
    by_cases hmem : r.global_id ∈ seen
    · have hstep : insert_vector_results (r :: rest) acc seen =
          insert_vector_results rest acc seen := by
        simp [insert_vector_results, hmem]
      rw [hstep]
      obtain ⟨h1, h2, h3, h4, h5⟩ := ih acc seen hseen hnd htag
      refine ⟨h1, h2, h3, h4, ?_⟩
      intro g hg
      rcases List.mem_cons.mp hg with hgr | hgrest
      · exact (h1 g).mp (h4 g (hgr ▸ hmem))
      · exact h5 g hgrest
    · have hstep : insert_vector_results (r :: rest) acc seen =
          insert_vector_results rest
            (acc ++ [{ r with from_methods := ["vector"] }])
            (r.global_id :: seen) := by
        simp [insert_vector_results, hmem]
      rw [hstep]
      have hseen' : ∀ x, x ∈ r.global_id :: seen ↔
          x ∈ gids (acc ++ [{ r with from_methods := ["vector"] }]) := by
        intro x
        rw [gids_append]
        simp only [List.mem_cons, List.mem_append, hseen x]
        constructor
        · rintro (rfl | hx)
          · right; simp [gids]
          · left; exact hx
        · rintro (hx | hx)
          · right; exact hx
          · left; simpa [gids] using hx
      have hnd' : (gids (acc ++ [{ r with from_methods := ["vector"] }])).Nodup := by
        rw [gids_append, List.nodup_append]
        refine ⟨hnd, by simp [gids], ?_⟩
        intro x hx hx'
        have hxr : x = r.global_id := by simpa [gids] using hx'
        subst hxr
        exact hmem ((hseen _).mpr hx)
      have htag' : ∀ r' ∈ acc ++ [{ r with from_methods := ["vector"] }],
          "vector" ∈ r'.from_methods := by
        intro r' hr'
        rcases List.mem_append.mp hr' with h | h
        · exact htag r' h
        · have hr : r' = { r with from_methods := ["vector"] } := by simpa using h
          rw [hr]
          simp
      obtain ⟨h1, h2, h3, h4, h5⟩ := ih _ _ hseen' hnd' htag'
      refine ⟨h1, h2, h3, fun x hx => h4 x (List.mem_cons_of_mem _ hx), ?_⟩
      intro g hg
      rcases List.mem_cons.mp hg with hgr | hgrest
      · exact (h1 g).mp (h4 g (hgr ▸ List.mem_cons_self _ _))
      · exact h5 g hgrest

theorem add_keyword_tag_spec : ∀ (acc : List SearchResult) (gid : String),
    (gids acc).Nodup →
    gids (add_keyword_tag acc gid) = gids acc ∧
    (∀ r ∈ acc, r.global_id ≠ gid → r ∈ add_keyword_tag acc gid) ∧
    (∀ r ∈ acc, r.global_id = gid →
      ∃ r₂ ∈ add_keyword_tag acc gid, r₂.global_id = gid ∧
        "keyword" ∈ r₂.from_methods ∧
        ∀ t ∈ r.from_methods, t ∈ r₂.from_methods) := by
  intro acc gid
  induction acc with
  | nil => intro _; exact ⟨rfl, by simp, by simp⟩
  | cons e rest ih =>
    intro hnd
    rw [gids_cons, List.nodup_cons] at hnd
    by_cases he : e.global_id = gid
    · have hstep : add_keyword_tag (e :: rest) gid =
          (if "keyword" ∈ e.from_methods then e
           else { e with from_methods := e.from_methods ++ ["keyword"] }) :: rest := by
        simp [add_keyword_tag, he]
      rw [hstep]
      refine ⟨?_, ?_, ?_⟩
      · by_cases hk : "keyword" ∈ e.from_methods <;> simp [hk, gids_cons, he]
      · intro r hr hrg
        rcases List.mem_cons.mp hr with hre | hrr
        · exact absurd (hre ▸ he) hrg
        · exact List.mem_cons_of_mem _ hrr
      · intro r hr hrg
        rcases List.mem_cons.mp hr with hre | hrr
        · subst hre
          by_cases hk : "keyword" ∈ r.from_methods
          · exact ⟨r, by simp [hk], he, hk, fun t ht => ht⟩
          · refine ⟨{ r with from_methods := r.from_methods ++ ["keyword"] },
              by simp [hk], he, by simp, fun t ht => by simp [ht]⟩
        · exact absurd (he ▸ hrg ▸ mem_gids.mpr ⟨r, hrr, rfl⟩ :
            e.global_id ∈ gids rest) hnd.1
    · have hstep : add_keyword_tag (e :: rest) gid =
          e :: add_keyword_tag rest gid := by
        simp [add_keyword_tag, he]
      rw [hstep]
      obtain ⟨hg, hu, hm⟩ := ih hnd.2
      refine ⟨by rw [gids_cons, gids_cons, hg], ?_, ?_⟩
      · intro r hr hrg
        rcases List.mem_cons.mp hr with hre | hrr
        · exact hre ▸ List.mem_cons_self _ _
        · exact List.mem_cons_of_mem _ (hu r hrr hrg)
      · intro r hr hrg
        rcases List.mem_cons.mp hr with hre | hrr
        · exact absurd (hre ▸ hrg) he
        · obtain ⟨r₂, hr₂, h₂⟩ := hm r hrr hrg
          exact ⟨r₂, List.mem_cons_of_mem _ hr₂, h₂⟩

theorem insert_keyword_invariant (k : List SearchResult) :
    ∀ acc seen,
      (∀ x, x ∈ seen ↔ x ∈ gids acc) →
      (gids acc).Nodup →
      (gids (insert_keyword_results k acc seen)).Nodup ∧
      (∀ r ∈ acc, ∃ r' ∈ insert_keyword_results k acc seen,
        r'.global_id = r.global_id ∧
        ∀ t ∈ r.from_methods, t ∈ r'.from_methods) ∧
      (∀ g ∈ gids k, ∃ r' ∈ insert_keyword_results k acc seen,
        r'.global_id = g ∧ "keyword" ∈ r'.from_methods ∧
        ∀ r ∈ acc, r.global_id = g →
          ∀ t ∈ r.from_methods, t ∈ r'.from_methods) := by
  induction k with
  | nil =>
    intro acc seen hseen hnd
    refine ⟨hnd, fun r hr => ⟨r, hr, rfl, fun t ht => ht⟩, ?_⟩
    intro g hg
    simp [gids] at hg
  | cons r rest ih =>
    intro acc seen hseen hnd
    by_cases hmem : r.global_id ∈ seen
    · have hstep : insert_keyword_results (r :: rest) acc seen =
          insert_keyword_results rest (add_keyword_tag acc r.global_id) seen := by
        simp [insert_keyword_results, hmem]
      rw [hstep]
      obtain ⟨hgeq, huntouched, hmatched⟩ := add_keyword_tag_spec acc r.global_id hnd
      have hseen' : ∀ x, x ∈ seen ↔ x ∈ gids (add_keyword_tag acc r.global_id) := by
        intro x
        rw [hgeq]
        exact hseen x
      have hnd' : (gids (add_keyword_tag acc r.global_id)).Nodup := hgeq ▸ hnd
      obtain ⟨h1, h2, h3⟩ := ih _ seen hseen' hnd'
      refine ⟨h1, ?_, ?_⟩
      · intro rr hrr
        by_cases hrg : rr.global_id = r.global_id
        · obtain ⟨r₂, hr₂, hg₂, _, hsub₂⟩ := hmatched rr hrr hrg
          obtain ⟨r', hr', hg', hsub'⟩ := h2 r₂ hr₂
          exact ⟨r', hr', hg' ▸ hg₂ ▸ hrg.symm, fun t ht => hsub' t (hsub₂ t ht)⟩
        · exact h2 rr (huntouched rr hrr hrg)
      · intro g hg
        rcases List.mem_cons.mp hg with hgr | hgrest
        · subst hgr
          obtain ⟨rₐ, hrₐ, hgₐ⟩ := mem_gids.mp ((hseen _).mp hmem)
          obtain ⟨r₂, hr₂, hg₂, hk₂, hsub₂⟩ := hmatched rₐ hrₐ hgₐ
          obtain ⟨r', hr', hg', hsub'⟩ := h2 r₂ hr₂
          refine ⟨r', hr', hg' ▸ hg₂, hsub' _ hk₂, ?_⟩
          intro rr hrr hrg
          have : rr = rₐ := gids_nodup_inj hnd hrr hrₐ (hrg.trans hgₐ.symm)
          subst this
          exact fun t ht => hsub' t (hsub₂ t ht)
        · by_cases hgr : g = r.global_id
          · subst hgr
            obtain ⟨rₐ, hrₐ, hgₐ⟩ := mem_gids.mp ((hseen _).mp hmem)
            obtain ⟨r₂, hr₂, hg₂, hk₂, hsub₂⟩ := hmatched rₐ hrₐ hgₐ
            obtain ⟨r', hr', hg', hsub'⟩ := h2 r₂ hr₂
            refine ⟨r', hr', hg' ▸ hg₂, hsub' _ hk₂, ?_⟩
            intro rr hrr hrg
            have : rr = rₐ := gids_nodup_inj hnd hrr hrₐ (hrg.trans hgₐ.symm)
            subst this
            exact fun t ht => hsub' t (hsub₂ t ht)
          · obtain ⟨r', hr', hg', hk', hsub'⟩ := h3 g hgrest
            refine ⟨r', hr', hg', hk', ?_⟩
            intro rr hrr hrg
            have hne : rr.global_id ≠ r.global_id := by
              rw [hrg]; exact hgr
            exact hsub' rr (huntouched rr hrr hne) hrg
    · have hstep : insert_keyword_results (r :: rest) acc seen =
          insert_keyword_results rest
            (acc ++ [{ r with from_methods := ["keyword"] }])
            (r.global_id :: seen) := by
        simp [insert_keyword_results, hmem]
      rw [hstep]
      have hseen' : ∀ x, x ∈ r.global_id :: seen ↔
          x ∈ gids (acc ++ [{ r with from_methods := ["keyword"] }]) := by
        intro x
        rw [gids_append]
        simp only [List.mem_cons, List.mem_append, hseen x]
        constructor
        · rintro (rfl | hx)
          · right; simp [gids]
          · left; exact hx
        · rintro (hx | hx)
          · right; exact hx
          · left; simpa [gids] using hx
      have hnd' : (gids (acc ++ [{ r with from_methods := ["keyword"] }])).Nodup := by
        rw [gids_append, List.nodup_append]
        refine ⟨hnd, by simp [gids], ?_⟩
        intro x hx hx'
        have hxr : x = r.global_id := by simpa [gids] using hx'
        subst hxr
        exact hmem ((hseen _).mpr hx)
      obtain ⟨h1, h2, h3⟩ := ih _ _ hseen' hnd'
      refine ⟨h1, ?_, ?_⟩
      · intro rr hrr
        exact h2 rr (List.mem_append.mpr (Or.inl hrr))
      · intro g hg
        rcases List.mem_cons.mp hg with hgr | hgrest
        · subst hgr
          obtain ⟨r', hr', hg', hsub'⟩ :=
            h2 { r with from_methods := ["keyword"] }
              (List.mem_append.mpr (Or.inr (by simp)))
          refine ⟨r', hr', hg', hsub' _ (by simp), ?_⟩
          intro rr hrr hrg
          exact absurd ((hseen _).mpr (mem_gids.mpr ⟨rr, hrr, hrg⟩)) hmem
        · obtain ⟨r', hr', hg', hk', hsub'⟩ := h3 g hgrest
          refine ⟨r', hr', hg', hk', ?_⟩
          intro rr hrr hrg
          exact hsub' rr (List.mem_append.mpr (Or.inl hrr)) hrg

end HybridMergeLemmas

section HybridMergeClaims

open HybridSearcher

theorem merge_le_trans : ∀ a b c : SearchResult,
    merge_le a b = true → merge_le b c = true → merge_le a c = true := by
  intro a b c
  simp only [merge_le, Bool.or_eq_true, Bool.and_eq_true, decide_eq_true_eq]
  omega

theorem merge_le_total : ∀ a b : SearchResult,
    (merge_le a b || merge_le b a) = true := by
  intro a b
  simp only [merge_le, Bool.or_eq_true, Bool.and_eq_true, decide_eq_true_eq]
  omega

theorem merge_le_imp {x y : SearchResult} (h : merge_le x y = true) :
    ("vector" ∈ y.from_methods → "vector" ∈ x.from_methods) ∧
    (("vector" ∈ x.from_methods ↔ "vector" ∈ y.from_methods) →
      y.score ≤ x.score) := by
  by_cases hx : "vector" ∈ x.from_methods <;>
    by_cases hy : "vector" ∈ y.from_methods <;>
      simp [merge_le, vec_rank, hx, hy] at h ⊢ <;> omega

/-- C3: in the hybrid merge output, any earlier element either already has
the "vector" tag whenever a later one does (so every vector-tagged result
precedes every keyword-only result, regardless of score), and within one
bucket (same has-vector-tag status) scores are descending. -/
theorem claim_C3_hybrid_ordering :
    ∀ vector_results keyword_results : List SearchResult,
      (merge_and_deduplicate vector_results keyword_results).Pairwise
        (fun x y =>
          ("vector" ∈ y.from_methods → "vector" ∈ x.from_methods) ∧
          (("vector" ∈ x.from_methods ↔ "vector" ∈ y.from_methods) →
            y.score ≤ x.score)) := by
  intro v k
  unfold merge_and_deduplicate
  have hsorted := List.sorted_mergeSort merge_le_trans merge_le_total
    (insert_keyword_results k (insert_vector_results v [] []).1
      (insert_vector_results v [] []).2)
  exact hsorted.imp (fun h => merge_le_imp h)

/-- C4: the hybrid merge output never contains two entries with the same
global id, and a candidate whose global id appears in both input lists
appears (exactly once, by the no-duplicates part) carrying both the "vector"
and the "keyword" provenance tags. -/
theorem claim_C4_hybrid_dedup_provenance :
    ∀ vector_results keyword_results : List SearchResult,
      (gids (merge_and_deduplicate vector_results keyword_results)).Nodup ∧
      (∀ g, g ∈ gids vector_results → g ∈ gids keyword_results →
        ∃ r ∈ merge_and_deduplicate vector_results keyword_results,
          r.global_id = g ∧ "vector" ∈ r.from_methods ∧
          "keyword" ∈ r.from_methods) := by
  intro v k
  obtain ⟨hv1, hv2, hv3, _, hv5⟩ := insert_vector_invariant v [] []
    (by intro x; simp [gids]) (by simp [gids]) (by simp)
  obtain ⟨hk1, hk2, hk3⟩ := insert_keyword_invariant k
    (insert_vector_results v [] []).1 (insert_vector_results v [] []).2
    hv1 hv2
  have hperm : (merge_and_deduplicate v k).Perm
      (insert_keyword_results k (insert_vector_results v [] []).1
        (insert_vector_results v [] []).2) := by
    unfold merge_and_deduplicate
    exact List.mergeSort_perm _ merge_le
  constructor
  · have := (hperm.map (·.global_id)).nodup_iff
    exact this.mpr hk1
  · intro g hgv hgk
    obtain ⟨rₐ, hrₐ, hgₐ⟩ := mem_gids.mp (hv5 g hgv)
    obtain ⟨r', hr', hg', hk', hsub'⟩ := hk3 g hgk
    refine ⟨r', hperm.mem_iff.mpr hr', hg', ?_, hk'⟩
    exact hsub' rₐ hrₐ hgₐ _ (hv3 rₐ hrₐ)

/-- Inputs used only by the C4 witness: the id "dup" occurs in both input
lists. -/
def w4v : SearchResult :=
  { global_id := "dup", chunk_id := 1, source_file := "f", page_num := "1",
    text := "t", score := 3, from_methods := [] }

def w4v2 : SearchResult :=
  { global_id := "von", chunk_id := 2, source_file := "f", page_num := "2",
    text := "t", score := 1, from_methods := [] }

def w4k : SearchResult :=
  { global_id := "dup", chunk_id := 1, source_file := "f", page_num := "1",
    text := "t", score := 9, from_methods := [] }

def w4k2 : SearchResult :=
  { global_id := "kon", chunk_id := 3, source_file := "f", page_num := "3",
    text := "t", score := 7, from_methods := [] }

theorem claim_C4_witness :
    (gids (merge_and_deduplicate [w4v, w4v2] [w4k, w4k2])).Nodup ∧
    (∃ r ∈ merge_and_deduplicate [w4v, w4v2] [w4k, w4k2],
      r.global_id = "dup" ∧ "vector" ∈ r.from_methods ∧
      "keyword" ∈ r.from_methods) :=
  ⟨(claim_C4_hybrid_dedup_provenance [w4v, w4v2] [w4k, w4k2]).1,
   (claim_C4_hybrid_dedup_provenance [w4v, w4v2] [w4k, w4k2]).2 "dup"
     (by decide) (by decide)⟩

end HybridMergeClaims

/-! JSON model.  `json.loads` is embedded as a recursive-descent parser over
character lists with a fuel argument (`input length + 1` at the top level,
strictly more than any possible nesting or member count).  Scope matches what
the embedded call sites can ever accept: object / array / string / integer /
boolean / null values; float literals, `NaN`/`Infinity`, and `\u` escapes are
not modelled and parse as failures. -/

inductive JValue where
  | str (s : String)
  | num (n : Int)
  | bool (b : Bool)
  | null
  | arr (xs : List JValue)
  | obj (kvs : List (String × JValue))

/-- JSON inter-token whitespace. -/
def json_ws (c : Char) : Bool :=
  c = ' ' || c = '\t' || c = '\n' || c = '\x0d'

/-- Parse the body of a JSON string (the opening quote already consumed),
returning the decoded characters and the rest of the input. -/
def parse_json_string : List Char → Option (List Char × List Char)
  | [] => none
  | c :: rest =>
    if c = '"' then some ([], rest)
    else if c = '\\' then
      match rest with
      | [] => none
      | e :: rest2 =>
        match
          (if e = '"' then some '"'
           else if e = '\\' then some '\\'
           else if e = '/' then some '/'
           else if e = 'b' then some '\x08'
           else if e = 'f' then some '\x0c'
           else if e = 'n' then some '\n'
           else if e = 'r' then some '\x0d'
           else if e = 't' then some '\t'
           else none) with
        | none => none
        | some ch => (parse_json_string rest2).map (fun p => (ch :: p.1, p.2))
    else if c.toNat < 32 then none
    else (parse_json_string rest).map (fun p => (c :: p.1, p.2))

/-- Parse a JSON integer literal (no leading zeros, no fraction/exponent). -/
def parse_json_number (cs : List Char) : Option (Int × List Char) :=
  let core : List Char → Option (Nat × List Char) := fun ds =>
    match h : ds.takeWhile (·.isDigit) with
    | [] => none
    | d :: drest =>
      if d = '0' ∧ drest ≠ [] then none
      else
        match (ds.dropWhile (·.isDigit)) with
        | '.' :: _ => none
        | 'e' :: _ => none
        | 'E' :: _ => none
        | r => some (digitsToNat (d :: drest), r)
  match cs with
  | '-' :: rest => (core rest).map (fun p => (-(p.1 : Int), p.2))
  | _ => (core cs).map (fun p => ((p.1 : Int), p.2))

mutual

def parse_json_value : Nat → List Char → Option (JValue × List Char)
  | 0, _ => none
  | fuel + 1, cs =>
    match cs.dropWhile json_ws with
    | [] => none
    | c :: rest =>
      if c = '"' then
        (parse_json_string rest).map (fun p => (JValue.str (String.mk p.1), p.2))
      else if c = '\x7b' then
        match rest.dropWhile json_ws with
        | '\x7d' :: r2 => some (JValue.obj [], r2)
        | _ => (parse_json_members fuel rest).map (fun p => (JValue.obj p.1, p.2))
      else if c = '[' then
        match rest.dropWhile json_ws with
        | ']' :: r2 => some (JValue.arr [], r2)
        | _ => (parse_json_elements fuel rest).map (fun p => (JValue.arr p.1, p.2))
      else if "true".data.isPrefixOf (c :: rest) then
        some (JValue.bool true, (c :: rest).drop 4)
      else if "false".data.isPrefixOf (c :: rest) then
        some (JValue.bool false, (c :: rest).drop 5)
      else if "null".data.isPrefixOf (c :: rest) then
        some (JValue.null, (c :: rest).drop 4)
      else
        (parse_json_number (c :: rest)).map (fun p => (JValue.num p.1, p.2))

def parse_json_members : Nat → List Char → Option (List (String × JValue) × List Char)
  | 0, _ => none
  | fuel + 1, cs =>
    match cs.dropWhile json_ws with
    | '"' :: rest =>
      match parse_json_string rest with
      | none => none
      | some (key, r1) =>
        match r1.dropWhile json_ws with
        | ':' :: r2 =>
          match parse_json_value fuel r2 with
          | none => none
          | some (v, r3) =>
            match r3.dropWhile json_ws with
            | ',' :: r4 =>
              (parse_json_members fuel r4).map
                (fun p => ((String.mk key, v) :: p.1, p.2))
            | '\x7d' :: r4 => some ([(String.mk key, v)], r4)
            | _ => none
        | _ => none
    | _ => none

def parse_json_elements : Nat → List Char → Option (List JValue × List Char)
  | 0, _ => none
  | fuel + 1, cs =>
    match parse_json_value fuel cs with
    | none => none
    | some (v, r1) =>
      match r1.dropWhile json_ws with
      | ',' :: r2 => (parse_json_elements fuel r2).map (fun p => (v :: p.1, p.2))
      | ']' :: r2 => some ([v], r2)
      | _ => none

end

/-- `json.loads` on a character list: one JSON value, then only trailing
whitespace. -/
def json_loads_chars (cs : List Char) : Option JValue :=
  match parse_json_value (cs.length + 1) cs with
  | some (v, rest) => if rest.dropWhile json_ws = [] then some v else none
  | none => none

/-- Python `dict` lookup for an object decoded from JSON: on duplicate keys
`json.loads` keeps the last occurrence. -/
def obj_get (kvs : List (String × JValue)) (key : String) : Option JValue :=
  kvs.foldl (fun acc kv => if kv.1 = key then some kv.2 else acc) none

/-- The two fence-removal substitutions of `parse_llm_json_response`:
`re.sub` with `^`-anchored \x60\x60\x60(json)? and `$`-anchored \x60\x60\x60
(the input is already stripped, so `$` is the end of the string). -/
def strip_code_fences (cs : List Char) : List Char :=
  let t1 :=
    if "```json".data.isPrefixOf cs then cs.drop 7
    else if "```".data.isPrefixOf cs then cs.drop 3
    else cs
  if "```".data.isSuffixOf t1 then t1.take (t1.length - 3) else t1

/-- Fallback regex of `parse_llm_json_response`: the leftmost block starting
at a left brace and running to the first right brace after it (no right brace
in between), if any. -/
def extract_brace_block (cs : List Char) : Option (List Char) :=
  match cs.dropWhile (· ≠ '\x7b') with
  | [] => none
  | b :: rest =>
    if (rest.takeWhile (· ≠ '\x7d')).length < rest.length then
      some (b :: rest.takeWhile (· ≠ '\x7d') ++ ['\x7d'])
    else none

/-- LLMUtils.parse_llm_json_response: strip, remove markdown code fences,
strip, `json.loads`; on failure retry on the first brace block; on total
failure return the empty dict. -/
def parse_llm_json_response (raw_response : String) : JValue :=
  match json_loads_chars (pyStrip (strip_code_fences (pyStrip raw_response.data))) with
  | some v => v
  | none =>
    match extract_brace_block (pyStrip (strip_code_fences (pyStrip raw_response.data))) with
    | some block =>
      match json_loads_chars block with
      | some v => v
      | none => JValue.obj []
    | none => JValue.obj []

namespace ChunkSelector

/-- The explicit no-match sentinel of the title selector. -/
def no_match_sentinel : String := "未检索到目标标题所在文本块"

/-- Regex search for 选项(\d+): leftmost occurrence of the two marker
characters followed by at least one digit; the captured value is the maximal
digit run. -/
def find_option_number : List Char → Option Nat
  | [] => none
  | c :: rest =>
    if c = '选' then
      match rest with
      | '项' :: r2 =>
        if (r2.takeWhile (·.isDigit)) ≠ [] then
          some (digitsToNat (r2.takeWhile (·.isDigit)))
        else find_option_number rest
      | _ => find_option_number rest
    else find_option_number rest

/-- Normalisation `(result.get("最佳选择") or "").strip()` of the selection
field: a missing key or a falsy value yields the empty string, a string
value is stripped, and a truthy non-string raises inside the `try` (modelled
as `none`, the exception path of `_parse_selection_result`). -/
def selection_of_jvalue : Option JValue → Option (List Char)
  | none => some []
  | some v =>
    match v with
    | .str s => some (pyStrip s.data)
    | .null => some []
    | .bool b => if b then none else some []
    | .num n => if n = 0 then some [] else none
    | .arr xs => if xs.isEmpty then some [] else none
    | .obj kvs => if kvs.isEmpty then some [] else none

/-- ChunkSelector._parse_selection_result applied to the decoded JSON reply:
empty dict or non-dict fails (`(None, False)`); the sentinel selection yields
`(None, True)`; an ordinal 选项n with 1 ≤ n ≤ total yields
`(some (n-1), False)`; everything else — out-of-range ordinal, no parsable
ordinal, or an exception while normalising — yields `(None, False)`. -/
def parse_selection_core (result : JValue) (total_candidates : Nat) :
    Option Nat × Bool :=
  match result with
  | .obj [] => (none, false)
  | .obj kvs =>
    match selection_of_jvalue (obj_get kvs "最佳选择") with
    | none => (none, false)
    | some sel =>
      if String.mk sel = no_match_sentinel then (none, true)
      else
        match find_option_number sel with
        | some option_num =>
          if 1 ≤ option_num ∧ option_num ≤ total_candidates then
            (some (option_num - 1), false)
          else (none, false)
        | none => (none, false)
  | _ => (none, false)

/-- ChunkSelector._parse_selection_result on the raw model reply. -/
def parse_selection_result (raw_response : String) (total_candidates : Nat) :
    Option Nat × Bool :=
  parse_selection_core (parse_llm_json_response raw_response) total_candidates

/-- ChunkSelector._call_llm_for_selection: the model call either raises
(modelled as `none`; the handler returns the empty string) or returns a reply
whose content is stripped. -/
def call_llm_for_selection (llm_reply : Option String) : String :=
  match llm_reply with
  | none => ""
  | some s => pyStripString s

/-- Observable outcome of `select_best_chunk`: the chosen chunk, the
`_last_selection_note` field, and whether the completion model was called. -/
structure SelectionOutcome where
  result : Option SearchResult
  note : Option String
  called_model : Bool
deriving DecidableEq, Repr

/-- ChunkSelector.select_best_chunk.  The candidate-expansion and prompt
construction only feed the external model, whose reply is the `llm_reply`
parameter, so they have no further observable effect here. -/
def select_best_chunk (candidate_results : List SearchResult)
    (intent : String) (llm_reply : Option String) : SelectionOutcome :=
  match candidate_results with
  | [] => ⟨none, if intent = "title" then some "未提供候选语块" else none, false⟩
  | [c] => ⟨some c, none, false⟩
  | c :: _ :: _ =>
    if intent ≠ "title" then ⟨some c, none, false⟩
    else
      match parse_selection_result (call_llm_for_selection llm_reply)
          candidate_results.length with
      | (_, true) => ⟨none, some no_match_sentinel, true⟩
      | (some selected_index, false) =>
        ⟨some (candidate_results.getD selected_index c), none, true⟩
      | (none, false) => ⟨some c, none, true⟩

end ChunkSelector

section SelectorClaims

open ChunkSelector

/-- C5: the selector with exactly one candidate returns it without calling
the model; with N ≥ 2 title-intent candidates, the sentinel selection parses
to (none, no-match) and yields no chunk, an out-of-range or unparsable
ordinal and every JSON failure parse to (none, not-no-match), and those fall
back to the top-ranked candidate — as does a model-call error — so the two
fail-closed outcomes stay distinct. -/
theorem claim_C5_selector_fail_closed :
    (∀ (c : SearchResult) (intent : String) (llm : Option String),
      select_best_chunk [c] intent llm =
        { result := some c, note := none, called_model := false }) ∧
    (∀ (kvs : List (String × JValue)) (N : Nat) (s : String),
      kvs ≠ [] → obj_get kvs "最佳选择" = some (JValue.str s) →
      String.mk (pyStrip s.data) = no_match_sentinel →
      parse_selection_core (JValue.obj kvs) N = (none, true)) ∧
    (∀ (kvs : List (String × JValue)) (N : Nat) (s : String),
      kvs ≠ [] → obj_get kvs "最佳选择" = some (JValue.str s) →
      String.mk (pyStrip s.data) ≠ no_match_sentinel →
      (∀ n, find_option_number (pyStrip s.data) = some n →
        ¬(1 ≤ n ∧ n ≤ N)) →
      parse_selection_core (JValue.obj kvs) N = (none, false)) ∧
    (∀ (v : JValue) (N : Nat), (∀ kvs, v = JValue.obj kvs → kvs = []) →
      parse_selection_core v N = (none, false)) ∧
    (∀ (cs : List SearchResult) (llm : Option String), 2 ≤ cs.length →
      (parse_selection_result (call_llm_for_selection llm) cs.length =
          (none, true) →
        (select_best_chunk cs "title" llm).result = none) ∧
      (parse_selection_result (call_llm_for_selection llm) cs.length =
          (none, false) →
        (select_best_chunk cs "title" llm).result = cs.head?)) ∧
    (∀ cs : List SearchResult, 2 ≤ cs.length →
      (select_best_chunk cs "title" none).result = cs.head?) := by
  have hcore_shape : ∀ (cs : List SearchResult) (llm : Option String),
      2 ≤ cs.length →
      (parse_selection_result (call_llm_for_selection llm) cs.length =
          (none, true) →
        (select_best_chunk cs "title" llm).result = none) ∧
      (parse_selection_result (call_llm_for_selection llm) cs.length =
          (none, false) →
        (select_best_chunk cs "title" llm).result = cs.head?) := by
    intro cs llm hlen
    match cs with
    | c1 :: c2 :: rest =>
      constructor
      · intro hp
        simp only [select_best_chunk, if_neg (by simp : ¬("title" ≠ "title")), hp]
      · intro hp
        simp only [select_best_chunk, if_neg (by simp : ¬("title" ≠ "title")), hp]
        rfl
  refine ⟨?_, ?_, ?_, ?_, hcore_shape, ?_⟩
  · intro c intent llm
    rfl
  · intro kvs N s hne hget hsent
    match kvs with
    | kv :: kvrest =>
      simp [parse_selection_core, hget, selection_of_jvalue, hsent]
  · intro kvs N s hne hget hsent hoor
    match kvs with
    | kv :: kvrest =>
      simp only [parse_selection_core, hget, selection_of_jvalue,
        if_neg hsent]
      cases hfind : find_option_number (pyStrip s.data) with
      | none => rfl
      | some n =>
        simp only [if_neg (hoor n hfind)]
  · intro v N hobj
    match v with
    | .str s => rfl
    | .num n => rfl
    | .bool b => rfl
    | .null => rfl
    | .arr xs => rfl
    | .obj kvs =>
      have := hobj kvs rfl
      subst this
      rfl
  · intro cs hlen
    have h1 := (hcore_shape cs none hlen).2
    apply h1
    have : call_llm_for_selection none = "" := rfl
    rw [this]
    rfl

/-- Candidates used only by the C5 witness. -/
def w5a : SearchResult :=
  { global_id := "a5", chunk_id := 10, source_file := "f", page_num := "10",
    text := "alpha", score := 0, from_methods := [] }

def w5b : SearchResult :=
  { global_id := "b5", chunk_id := 11, source_file := "f", page_num := "11",
    text := "beta", score := 0, from_methods := [] }

theorem claim_C5_witness :
    select_best_chunk [w5a] "title" (some "ignored") =
      { result := some w5a, note := none, called_model := false } ∧
    (select_best_chunk [w5a, w5b] "title"
      (some "\x7b\"最佳选择\": \"未检索到目标标题所在文本块\"\x7d")).result = none ∧
    (select_best_chunk [w5a, w5b] "title"
      (some "\x7b\"最佳选择\": \"选项9\"\x7d")).result = some w5a ∧
    (select_best_chunk [w5a, w5b] "title" (some "no markers here")).result =
      some w5a ∧
    (select_best_chunk [w5a, w5b] "title" none).result = some w5a := by
  refine ⟨claim_C5_selector_fail_closed.1 w5a "title" (some "ignored"),
    ((claim_C5_selector_fail_closed.2.2.2.2.1 [w5a, w5b]
      (some "\x7b\"最佳选择\": \"未检索到目标标题所在文本块\"\x7d")
      (by decide)).1 (by rfl)),
    ((claim_C5_selector_fail_closed.2.2.2.2.1 [w5a, w5b]
      (some "\x7b\"最佳选择\": \"选项9\"\x7d")
      (by decide)).2 (by rfl)),
    ((claim_C5_selector_fail_closed.2.2.2.2.1 [w5a, w5b]
      (some "no markers here")
      (by decide)).2 (by rfl)),
    (claim_C5_selector_fail_closed.2.2.2.2.2 [w5a, w5b] (by decide))⟩

/-- C10: with at least two candidates and any intent other than title, the
selector returns the top-ranked candidate and never calls the completion
model. -/
theorem claim_C10_non_title_no_model :
    ∀ (cs : List SearchResult) (intent : String) (llm : Option String),
      2 ≤ cs.length → intent ≠ "title" →
      (select_best_chunk cs intent llm).result = cs.head? ∧
      (select_best_chunk cs intent llm).called_model = false := by
  intro cs intent llm hlen hintent
  match cs with
  | c1 :: c2 :: rest =>
    simp [select_best_chunk, hintent]

theorem claim_C10_witness :
    (select_best_chunk [w2a, w2b, w2c] "content" (some "reply")).result =
      some w2a ∧
    (select_best_chunk [w2a, w2b, w2c] "content" (some "reply")).called_model =
      false :=
  claim_C10_non_title_no_model [w2a, w2b, w2c] "content" (some "reply")
    (by decide) (by decide)

end SelectorClaims

namespace ProspectusSearchTool

/-- ProspectusSearchTool._parse_search_intent: a stripped empty query is
content intent with an empty query; a 章节标题检索 prefix (full- or
half-width colon) selects title intent; a 内容检索 prefix selects content
intent; anything else is content intent with the stripped text itself. -/
def parse_search_intent : Option String → String × String
  | none => ("content", "")
  | some search_info =>
    if pyStrip search_info.data = [] then ("content", "")
    else if "章节标题检索：".data.isPrefixOf (pyStrip search_info.data) then
      ("title", String.mk (pyStrip
        ((pyStrip search_info.data).drop "章节标题检索：".data.length)))
    else if "章节标题检索:".data.isPrefixOf (pyStrip search_info.data) then
      ("title", String.mk (pyStrip
        ((pyStrip search_info.data).drop "章节标题检索:".data.length)))
    else if "内容检索：".data.isPrefixOf (pyStrip search_info.data) then
      ("content", String.mk (pyStrip
        ((pyStrip search_info.data).drop "内容检索：".data.length)))
    else if "内容检索:".data.isPrefixOf (pyStrip search_info.data) then
      ("content", String.mk (pyStrip
        ((pyStrip search_info.data).drop "内容检索:".data.length)))
    else ("content", String.mk (pyStrip search_info.data))

/-- ProspectusSearchTool._infer_intent_for_error: a missing or empty query
and the catalog marker 目录 are mapped to "content"; otherwise the parsed
intent decides the error shape. -/
def infer_intent_for_error (search_info : Option String) : String :=
  match search_info with
  | none => "content"
  | some s =>
    if s = "" ∨ s = "目录" then "content"
    else (parse_search_intent (some s)).1

/-- ProspectusSearchTool._validate_parameters: returns the first failing
check's message, or `none` when valid. -/
def validate_parameters (fund_code : String) (search_info : Option String)
    (start_page end_page start_chunk_id end_chunk_id : Option Int) :
    Option String :=
  if fund_code = "" ∨ pyStrip fund_code.data = [] then some "基金代码不能为空"
  else if search_info = none then some "检索信息不能为空"
  else if (match start_page, end_page with
    | some s, some e => s > e
    | _, _ => false : Bool) then some "起始页码不能大于截止页码"
  else if (match start_chunk_id, end_chunk_id with
    | some s, some e => s > e
    | _, _ => false : Bool) then some "起始chunk_id不能大于截止chunk_id"
  else none

/-- The flat (title-style) error dictionary. -/
structure TitleShapedError where
  success : Bool
  source_file : Option String
  content : Option String
  start_page : Option Int
  end_page : Option Int
  start_chunk_id : Option Int
  end_chunk_id : Option Int
  error : String
deriving DecidableEq, Repr

/-- One entry of the content-style results list. -/
structure ContentResultEntry where
  text : String
  start_page : Option Int
  end_page : Option Int
  start_chunk_id : Option Int
  end_chunk_id : Option Int
deriving DecidableEq, Repr

/-- The list (content-style) error dictionary. -/
structure ContentShapedError where
  success : Bool
  source_file : Option String
  error : String
  retrieved_count : Nat
  retrieved_summary : Option String
  results : List ContentResultEntry
deriving DecidableEq, Repr

/-- Caller-visible outcome of the validation stage of `search_prospectus`:
one of the two error shapes, or control proceeding into the backend-driven
pipeline (outside this model). -/
inductive ToolResult where
  | title_shaped (r : TitleShapedError)
  | content_shaped (r : ContentShapedError)
  | proceeds
deriving DecidableEq, Repr

def is_title_shaped : ToolResult → Bool
  | .title_shaped _ => true
  | _ => false

def is_content_shaped : ToolResult → Bool
  | .content_shaped _ => true
  | _ => false

/-- ProspectusSearchTool._create_error_result: the flat shape with nulled
fields exactly when the intent is "title", the list shape with zero count and
empty results otherwise. -/
def create_error_result (error_msg : String) (intent : String) : ToolResult :=
  if intent = "title" then
    ToolResult.title_shaped
      { success := false, source_file := none, content := none,
        start_page := none, end_page := none, start_chunk_id := none,
        end_chunk_id := none, error := error_msg }
  else
    ToolResult.content_shaped
      { success := false, source_file := none,
        error := error_msg, retrieved_count := 0, retrieved_summary := none,
        results := [] }

/-- The validation prefix of ProspectusSearchTool.search_prospectus: infer
the error-shaping intent from the query, validate, and on failure return
the intent-shaped error before any backend work. -/
def search_prospectus_validation_stage (fund_code : String)
    (search_info : Option String) (sp ep sc ec : Option Int) : ToolResult :=
  match validate_parameters fund_code search_info sp ep sc ec with
  | some err => create_error_result err (infer_intent_for_error search_info)
  | none => .proceeds

/-- DirectorySearcher._create_error_result: failures inside the catalog
pipeline itself always use the flat shape. -/
def directory_searcher_error_result (error_msg : String) : TitleShapedError :=
  { success := false, source_file := none, content := none,
    start_page := none, end_page := none, start_chunk_id := none,
    end_chunk_id := none, error := error_msg }

end ProspectusSearchTool

section OrchestratorClaims

open ProspectusSearchTool

/-- C7 counterexample: a catalog-intent request (the query is the catalog
marker 目录) that fails validation returns the list shape, not the single
flat shape the claim requires for catalog intent — the error-intent
inference deliberately maps 目录 to "content". -/
theorem claim_C7_counterexample :
    search_prospectus_validation_stage "" (some "目录") none none none none =
      ToolResult.content_shaped
        { success := false, source_file := none,
          error := "基金代码不能为空", retrieved_count := 0,
          retrieved_summary := none, results := [] } ∧
    is_title_shaped
      (search_prospectus_validation_stage "" (some "目录") none none none none) =
      false := by
  exact ⟨rfl, rfl⟩

/-- C7 (amended): every failure response is shaped by the inferred error
intent — "title" selects the single flat shape with nulled fields and the
message, every other inferred intent selects the list shape with empty
results and zero count; the inference maps missing/empty queries and the
catalog marker 目录 to "content" (so catalog-intent failures raised before
dispatch use the list shape) while title-prefixed queries map to "title";
validation failures return exactly that intent-shaped error, and failures
inside the catalog pipeline itself use the flat shape. -/
theorem claim_C7_error_shapes :
    (∀ msg, create_error_result msg "title" =
      ToolResult.title_shaped
        { success := false, source_file := none,
          content := none, start_page := none, end_page := none,
          start_chunk_id := none, end_chunk_id := none, error := msg }) ∧
    (∀ msg intent, intent ≠ "title" → create_error_result msg intent =
      ToolResult.content_shaped
        { success := false, source_file := none,
          error := msg, retrieved_count := 0, retrieved_summary := none,
          results := [] }) ∧
    (infer_intent_for_error none = "content" ∧
     infer_intent_for_error (some "") = "content" ∧
     infer_intent_for_error (some "目录") = "content" ∧
     infer_intent_for_error (some "章节标题检索：基金管理人") = "title" ∧
     infer_intent_for_error (some "内容检索：基金管理人") = "content") ∧
    (∀ fund_code search_info sp ep sc ec err,
      validate_parameters fund_code search_info sp ep sc ec = some err →
      search_prospectus_validation_stage fund_code search_info sp ep sc ec =
        create_error_result err (infer_intent_for_error search_info)) ∧
    (∀ msg, directory_searcher_error_result msg =
      { success := false, source_file := none, content := none,
        start_page := none, end_page := none, start_chunk_id := none,
        end_chunk_id := none, error := msg }) := by
  refine ⟨fun msg => rfl, ?_, ⟨rfl, rfl, rfl, rfl, rfl⟩, ?_, fun msg => rfl⟩
  · intro msg intent h
    simp [create_error_result, h]
  · intro fund_code search_info sp ep sc ec err hval
    unfold search_prospectus_validation_stage
    rw [hval]

theorem claim_C7_witness :
    create_error_result "m" "content" =
      ToolResult.content_shaped
        { success := false, source_file := none,
          error := "m", retrieved_count := 0, retrieved_summary := none,
          results := [] } ∧
    search_prospectus_validation_stage "180101.SZ" (some "目录")
      (some 9) (some 3) none none =
      create_error_result "起始页码不能大于截止页码"
        (infer_intent_for_error (some "目录")) :=
  ⟨claim_C7_error_shapes.2.1 "m" "content" (by decide),
   claim_C7_error_shapes.2.2.2.1 "180101.SZ" (some "目录")
     (some 9) (some 3) none none "起始页码不能大于截止页码" rfl⟩

end OrchestratorClaims

namespace ReasonerDriver

/-- One entry of the conversation history. -/
structure Message where
  role : String
  content : String
deriving DecidableEq, Repr

/-- Parsed disposition of one model reply (`_parse_reasoner_output`'s `type`
field, with its coupled payload). -/
inductive ParsedDisposition where
  | tool_call (params : JValue)
  | final_answer (answer : String)
  | format_error
  | error

/-- The Python `type` string of a disposition, as stored in the round
record. -/
def disposition_tag : ParsedDisposition → String
  | .tool_call _ => "tool_call"
  | .final_answer _ => "final_answer"
  | .format_error => "format_error"
  | .error => "error"

/-- Parsed model reply: disposition plus accumulated error strings. -/
structure ParsedOutput where
  disposition : ParsedDisposition
  errors : List String

/-- Search for the pattern TOOL_CALL: followed by optional whitespace and a
brace block running to the first closing brace (the regex
`TOOL_CALL:\s*(\x7b.*?\x7d)` with DOTALL): leftmost matching position. -/
def find_tool_call_block : List Char → Option (List Char)
  | [] => none
  | c :: rest =>
    if "TOOL_CALL:".data.isPrefixOf (c :: rest) then
      match ((c :: rest).drop 10).dropWhile isPySpace with
      | '\x7b' :: r =>
        if (r.takeWhile (· ≠ '\x7d')).length < r.length then
          some ('\x7b' :: r.takeWhile (· ≠ '\x7d') ++ ['\x7d'])
        else find_tool_call_block rest
      | _ => find_tool_call_block rest
    else find_tool_call_block rest

/-- Search for FINAL_ANSWER: (the regex `FINAL_ANSWER:\s*(.*)\s*$` with
DOTALL): the captured payload is everything after the marker and its
following whitespace, at the leftmost occurrence. -/
def find_final_answer_payload : List Char → Option (List Char)
  | [] => none
  | c :: rest =>
    if "FINAL_ANSWER:".data.isPrefixOf (c :: rest) then
      some (((c :: rest).drop 13).dropWhile isPySpace)
    else find_final_answer_payload rest

/-- Required-parameter check of `_parse_reasoner_output`:
`p not in tool_call or tool_call[p] is None` for the two required keys.  A
non-object decode is treated as missing both keys (the Python membership
test on a non-dict container cannot see string keys except in the degenerate
case of a list of these very strings, which is not modelled). -/
def missing_required_params (v : JValue) : List String :=
  ["fund_code", "search_info"].filter (fun p =>
    match v with
    | .obj kvs =>
      match obj_get kvs p with
      | none => true
      | some .null => true
      | some _ => false
    | _ => true)

/-- Python `repr` of a list of strings, as interpolated into the
missing-parameter message. -/
def py_list_repr (xs : List String) : String :=
  "[" ++ String.intercalate ", " (xs.map (fun s => "\x27" ++ s ++ "\x27")) ++ "]"

/-- Stand-in for the `json.JSONDecodeError` detail interpolated into
`f"JSON解析失败: {e}"`; the decoder's explanatory text itself is outside the
model. -/
def json_decode_error_message : String := "JSON解析失败"

/-- _parse_reasoner_output: a TOOL_CALL block is checked first (JSON decode,
then required parameters); otherwise a FINAL_ANSWER payload (empty after
stripping is an error); otherwise a format error.  The analysis extraction is
diagnostic-only (it feeds logs and is not read by the driver) and is not
modelled. -/
def parse_reasoner_output (content : String) : ParsedOutput :=
  match find_tool_call_block content.data with
  | some block =>
    match json_loads_chars block with
    | some tool_call =>
      match missing_required_params tool_call with
      | [] => { disposition := .tool_call tool_call, errors := [] }
      | missing =>
        { disposition := .error,
          errors := ["缺少必填参数: " ++ py_list_repr missing] }
    | none =>
      { disposition := .error, errors := [json_decode_error_message] }
  | none =>
    match find_final_answer_payload content.data with
    | some payload =>
      if pyStrip payload = [] then
        { disposition := .error, errors := ["最终答案不能为空"] }
      else
        { disposition := .final_answer (String.mk (pyStrip payload)),
          errors := [] }
    | none =>
      { disposition := .format_error,
        errors := ["未找到有效的TOOL_CALL或FINAL_ANSWER格式"] }

/-- Record of one conversation round (timestamp, analysis, and raw tool
payloads are logging-only and not modelled). -/
structure RoundData where
  round_number : Nat
  reasoning_content : String
  response_content : String
  parsed_type : String
  errors : List String
  tool_success : Option Bool
deriving DecidableEq, Repr

/-- Record of one tool invocation. -/
structure ToolCallRecord where
  round : Nat
  success : Bool
  error : Option String
deriving DecidableEq, Repr

/-- One completion-model turn: either the API call raises, or it returns a
reply with an optional reasoning trace and the visible content. -/
inductive ModelCall where
  | failure (err : String)
  | reply (reasoning content : String)

/-- Final state of `_chat_with_deepseek_reasoner`.  `messages` is the
conversation history (a local in Python), exposed so the feedback discipline
can be stated. -/
structure ChatOutcome where
  success : Bool
  error : Option String
  final_answer : String
  conversation_rounds : List RoundData
  total_rounds : Nat
  all_reasoning : List String
  tool_calls : List ToolCallRecord
  messages : List Message
deriving Repr

/-- Corrective feedback sent after a malformed round, restating the two
allowed reply formats. -/
def format_correction_prompt (error_details : String) : String :=
  "输出格式有误：" ++ error_details ++
  "\n\n请严格按照以下格式输出：\n1. 如需调用工具，使用格式：\nTOOL_CALL:\n\x7b 仅填写本轮需要的参数 \x7d\n\n2. 如给出最终答案，使用格式：\nFINAL_ANSWER:\n具体答案内容"

/-- Feedback after a successful tool call. -/
def tool_success_feedback (tool_response : String) : String :=
  "工具调用已执行完成，结果如下：\n\n" ++ tool_response ++
  "\n\n请基于此结果继续分析或给出最终答案。记住要按照指定格式输出。"

/-- Feedback after a failed tool call. -/
def tool_failure_feedback (error_msg : String) : String :=
  error_msg ++ "\n\n请检查参数并重试，或采用其他检索策略。记住要按照指定格式输出。"

/-- The round loop of `_chat_with_deepseek_reasoner`.  `round_index` is the
1-based Python loop variable; `remaining` counts the iterations left in
`range(1, max_rounds + 1)`. -/
def chat_loop (model : Nat → ModelCall) (tool : JValue → Except String String)
    (max_rounds : Nat) :
    Nat → Nat → List Message → List RoundData → List String →
      List ToolCallRecord → ChatOutcome
  | _, 0, messages, rounds, reasonings, tool_calls =>
    { success := false,
      error := some ("达到最大轮数 " ++ toString max_rounds),
      final_answer := "达到最大对话轮数，未能获得完整答案",
      conversation_rounds := rounds, total_rounds := max_rounds,
      all_reasoning := reasonings, tool_calls := tool_calls,
      messages := messages }
  | round_index, remaining + 1, messages, rounds, reasonings, tool_calls =>
    match model round_index with
    | .failure e =>
      { success := false, error := some ("模型调用失败: " ++ e),
        final_answer := "", conversation_rounds := rounds,
        total_rounds := round_index - 1, all_reasoning := reasonings,
        tool_calls := tool_calls, messages := messages }
    | .reply reasoning content =>
      let parsed := parse_reasoner_output content
      let reasonings' :=
        if reasoning = "" then reasonings
        else reasonings ++
          ["=== 第 " ++ toString round_index ++ " 轮推理 ===\n" ++ reasoning]
      let messages₁ := messages ++ [{ role := "assistant", content := content }]
      let round_data : Option Bool → String → RoundData :=
        fun ts tag =>
          { round_number := round_index, reasoning_content := reasoning,
            response_content := content, parsed_type := tag,
            errors := parsed.errors, tool_success := ts }
      match parsed.disposition with
      | .tool_call tc =>
        match tool tc with
        | .ok tool_response =>
          chat_loop model tool max_rounds (round_index + 1) remaining
            (messages₁ ++
              [{ role := "user", content := tool_success_feedback tool_response }])
            (rounds ++ [round_data (some true) "tool_call"])
            reasonings'
            (tool_calls ++ [{ round := round_index, success := true, error := none }])
        | .error e =>
          chat_loop model tool max_rounds (round_index + 1) remaining
            (messages₁ ++
              [{ role := "user", content := tool_failure_feedback ("工具调用失败: " ++ e) }])
            (rounds ++ [round_data (some false) "tool_call"])
            reasonings'
            (tool_calls ++ [{ round := round_index, success := false, error := some e }])
      | .final_answer ans =>
        { success := true, error := none, final_answer := ans,
          conversation_rounds := rounds ++ [round_data none "final_answer"],
          total_rounds := round_index, all_reasoning := reasonings',
          tool_calls := tool_calls, messages := messages₁ }
      | .format_error =>
        chat_loop model tool max_rounds (round_index + 1) remaining
          (messages₁ ++ [{ role := "user", content := format_correction_prompt (String.intercalate "; " parsed.errors) }])
          (rounds ++ [round_data none "format_error"])
          reasonings' tool_calls
      | .error =>
        chat_loop model tool max_rounds (round_index + 1) remaining
          (messages₁ ++ [{ role := "user", content := format_correction_prompt (String.intercalate "; " parsed.errors) }])
          (rounds ++ [round_data none "error"])
          reasonings' tool_calls

/-- _chat_with_deepseek_reasoner: run the loop from round 1 on the initial
system + user history. -/
def chat_with_deepseek_reasoner (model : Nat → ModelCall)
    (tool : JValue → Except String String)
    (system_prompt user_question : String) (max_rounds : Nat) : ChatOutcome :=
  chat_loop model tool max_rounds 1 max_rounds
    [{ role := "system", content := system_prompt },
     { role := "user", content := user_question }] [] [] []

/-- A model turn is malformed when it returns a reply that parses to neither
a well-formed action block nor a final-answer block. -/
def malformed_turn (m : ModelCall) : Prop :=
  ∃ reasoning content, m = .reply reasoning content ∧
    ((parse_reasoner_output content).disposition = .format_error ∨
     (parse_reasoner_output content).disposition = .error)

/-- Messages appended by a run of consecutive malformed rounds: each round
contributes the assistant reply and the corrective feedback restating the
allowed formats. -/
def malformed_trace (model : Nat → ModelCall) : Nat → Nat → List Message
  | _, 0 => []
  | round_index, remaining + 1 =>
    match model round_index with
    | .failure _ => []
    | .reply _ content =>
      { role := "assistant", content := content } ::
      { role := "user", content := format_correction_prompt
          (String.intercalate "; " (parse_reasoner_output content).errors) } ::
      malformed_trace model (round_index + 1) remaining

end ReasonerDriver

section DriverClaims

open ReasonerDriver

theorem chat_loop_all_malformed (model : Nat → ModelCall)
    (tool : JValue → Except String String) (max_rounds : Nat)
    (h : ∀ i, malformed_turn (model i)) :
    ∀ (remaining round_index : Nat) (messages : List Message)
      (rounds : List RoundData) (reasonings : List String)
      (tool_calls : List ToolCallRecord),
      (chat_loop model tool max_rounds round_index remaining messages rounds
        reasonings tool_calls).success = false ∧
      (chat_loop model tool max_rounds round_index remaining messages rounds
        reasonings tool_calls).final_answer = "达到最大对话轮数，未能获得完整答案" ∧
      (chat_loop model tool max_rounds round_index remaining messages rounds
        reasonings tool_calls).error =
          some ("达到最大轮数 " ++ toString max_rounds) ∧
      (chat_loop model tool max_rounds round_index remaining messages rounds
        reasonings tool_calls).total_rounds = max_rounds ∧
      (chat_loop model tool max_rounds round_index remaining messages rounds
        reasonings tool_calls).conversation_rounds.length =
          rounds.length + remaining ∧
      (∀ rd ∈ (chat_loop model tool max_rounds round_index remaining messages
          rounds reasonings tool_calls).conversation_rounds,
        rd ∈ rounds ∨ rd.parsed_type = "format_error" ∨
          rd.parsed_type = "error") ∧
      (chat_loop model tool max_rounds round_index remaining messages rounds
        reasonings tool_calls).messages =
          messages ++ malformed_trace model round_index remaining := by
  intro remaining
  induction remaining with
  | zero =>
    intro round_index messages rounds reasonings tool_calls
    simp [chat_loop, malformed_trace]
    exact fun rd hrd => Or.inl hrd
  | succ rem ih =>
    intro round_index messages rounds reasonings tool_calls
    obtain ⟨r, c, hm, hd⟩ := h round_index
    rcases hd with hd | hd
    · have hstep : chat_loop model tool max_rounds round_index (rem + 1)
          messages rounds reasonings tool_calls =
          chat_loop model tool max_rounds (round_index + 1) rem
            (messages ++ [{ role := "assistant", content := c }, { role := "user", content := format_correction_prompt (String.intercalate "; " (parse_reasoner_output c).errors) }])
            (rounds ++ [{ round_number := round_index, reasoning_content := r, response_content := c, parsed_type := "format_error", errors := (parse_reasoner_output c).errors, tool_success := none }])
            (if r = "" then reasonings
             else reasonings ++
               ["=== 第 " ++ toString round_index ++ " 轮推理 ===\n" ++ r])
            tool_calls := by
        simp only [chat_loop, hm, hd]
        simp
      have htrace : malformed_trace model round_index (rem + 1) =
          { role := "assistant", content := c } ::
          { role := "user", content := format_correction_prompt (String.intercalate "; " (parse_reasoner_output c).errors) } ::
          malformed_trace model (round_index + 1) rem := by
        simp only [malformed_trace, hm]
      obtain ⟨i1, i2, i3, i4, i5, i6, i7⟩ := ih (round_index + 1) _ _ _ _
      rw [hstep]
      refine ⟨i1, i2, i3, i4, ?_, ?_, ?_⟩
      · rw [i5]
        simp
        omega
      · intro rd hrd
        rcases i6 rd hrd with hmem | htype
        · rcases List.mem_append.mp hmem with hmem' | hmem'
          · exact Or.inl hmem'
          · right; left
            have hrdeq : rd = { round_number := round_index, reasoning_content := r, response_content := c, parsed_type := "format_error", errors := (parse_reasoner_output c).errors, tool_success := none } := by
              simpa using hmem'
            rw [hrdeq]
        · exact Or.inr htype
      · rw [i7, htrace]
        simp
    · have hstep : chat_loop model tool max_rounds round_index (rem + 1)
          messages rounds reasonings tool_calls =
          chat_loop model tool max_rounds (round_index + 1) rem
            (messages ++ [{ role := "assistant", content := c }, { role := "user", content := format_correction_prompt (String.intercalate "; " (parse_reasoner_output c).errors) }])
            (rounds ++ [{ round_number := round_index, reasoning_content := r, response_content := c, parsed_type := "error", errors := (parse_reasoner_output c).errors, tool_success := none }])
            (if r = "" then reasonings
             else reasonings ++
               ["=== 第 " ++ toString round_index ++ " 轮推理 ===\n" ++ r])
            tool_calls := by
        simp only [chat_loop, hm, hd]
        simp
      have htrace : malformed_trace model round_index (rem + 1) =
          { role := "assistant", content := c } ::
          { role := "user", content := format_correction_prompt (String.intercalate "; " (parse_reasoner_output c).errors) } ::
          malformed_trace model (round_index + 1) rem := by
        simp only [malformed_trace, hm]
      obtain ⟨i1, i2, i3, i4, i5, i6, i7⟩ := ih (round_index + 1) _ _ _ _
      rw [hstep]
      refine ⟨i1, i2, i3, i4, ?_, ?_, ?_⟩
      · rw [i5]
        simp
        omega
      · intro rd hrd
        rcases i6 rd hrd with hmem | htype
        · rcases List.mem_append.mp hmem with hmem' | hmem'
          · exact Or.inl hmem'
          · right; right
            have hrdeq : rd = { round_number := round_index, reasoning_content := r, response_content := c, parsed_type := "error", errors := (parse_reasoner_output c).errors, tool_success := none } := by
              simpa using hmem'
            rw [hrdeq]
        · exact Or.inr htype
      · rw [i7, htrace]
        simp

/-- C6: when the completion model returns a malformed reply on every round,
the simulated-protocol driver terminates in failure after exactly maxRounds
rounds, returning the sentinel partial answer and the budget-exhausted error;
every round record is a malformed one (each model turn consumed one round),
and after each malformed round the corrective feedback restating the two
allowed formats is appended to the history. -/
theorem claim_C6_driver_malformed_budget (model : Nat → ModelCall)
    (tool : JValue → Except String String)
    (system_prompt user_question : String) (max_rounds : Nat)
    (h : ∀ i, malformed_turn (model i)) :
    (chat_with_deepseek_reasoner model tool system_prompt user_question
      max_rounds).success = false ∧
    (chat_with_deepseek_reasoner model tool system_prompt user_question
      max_rounds).final_answer = "达到最大对话轮数，未能获得完整答案" ∧
    (chat_with_deepseek_reasoner model tool system_prompt user_question
      max_rounds).error = some ("达到最大轮数 " ++ toString max_rounds) ∧
    (chat_with_deepseek_reasoner model tool system_prompt user_question
      max_rounds).total_rounds = max_rounds ∧
    (chat_with_deepseek_reasoner model tool system_prompt user_question
      max_rounds).conversation_rounds.length = max_rounds ∧
    (∀ rd ∈ (chat_with_deepseek_reasoner model tool system_prompt
        user_question max_rounds).conversation_rounds,
      rd.parsed_type = "format_error" ∨ rd.parsed_type = "error") ∧
    (chat_with_deepseek_reasoner model tool system_prompt user_question
      max_rounds).messages =
      [{ role := "system", content := system_prompt }, { role := "user", content := user_question }] ++
        malformed_trace model 1 max_rounds := by
  obtain ⟨i1, i2, i3, i4, i5, i6, i7⟩ :=
    chat_loop_all_malformed model tool max_rounds h max_rounds 1
      [{ role := "system", content := system_prompt }, { role := "user", content := user_question }] [] [] []
  refine ⟨i1, i2, i3, i4, by simpa using i5, ?_, i7⟩
  intro rd hrd
  rcases i6 rd hrd with hmem | htype
  · simp at hmem
  · exact htype

/-- Model stub used only by the C6 witness: it always answers with a reply
that carries neither marker. -/
def c6Model : Nat → ModelCall := fun _ => ModelCall.reply "" "hi"

/-- Tool stub used only by the C6 witness (never reached). -/
def c6Tool : JValue → Except String String := fun _ => Except.error "unused"

theorem claim_C6_witness :
    (chat_with_deepseek_reasoner c6Model c6Tool "sys" "q" 2).success = false ∧
    (chat_with_deepseek_reasoner c6Model c6Tool "sys" "q" 2).final_answer =
      "达到最大对话轮数，未能获得完整答案" ∧
    (chat_with_deepseek_reasoner c6Model c6Tool "sys" "q" 2).total_rounds = 2 ∧
    (chat_with_deepseek_reasoner c6Model c6Tool
      "sys" "q" 2).conversation_rounds.length = 2 := by
  obtain ⟨i1, i2, _, i4, i5, _, _⟩ :=
    claim_C6_driver_malformed_budget c6Model c6Tool "sys" "q" 2
      (fun i => ⟨"", "hi", rfl, Or.inl rfl⟩)
  exact ⟨i1, i2, i4, i5⟩

end DriverClaims
